import Mathlib

/-!
Shallow embedding of the task-tracker backend (Express + Mongoose) and proofs
about its authentication and per-user data-isolation boundary.

Embedded source files:
- src/server/models/Task.js          (task schema, default serialization)
- src/server/models/User.js          (user schema, pre-save hash, toJSON)
- src/server/controllers/taskController.js (getTasks, createTask, updateTask,
  deleteTask, getTaskById)
- src/server/middleware/auth.js      (requireAuth, JWT variant, lines 14-46)
- src/server/utils/jwt.js            (generateToken, verifyToken)
- src/server/routes/auth.js          (register/login/logout/me handlers)
- src/server/routes/tasks.js         (route table, including GET /tasks/debug)

The document store (MongoDB via Mongoose) is modelled as a list of records;
`findOne`/`findOneAndUpdate`/`findOneAndDelete` act on the first record
matching the compound filter, mirroring Mongoose's single-document semantics.
JavaScript strings are modelled as Lean `String`; the JS string operations
used by the code (`trim`, `toLowerCase`, `startsWith`, `substring`, `length`)
are modelled character-wise, which coincides with JS for the ASCII data these
handlers process.
-/

namespace TaskTracker

/-- JSON-like values, used to model what `res.json(...)` serializes. -/
inductive JVal where
  | s (v : String)
  | n (v : Nat)
  | b (v : Bool)
  | arr (vs : List JVal)
  | obj (fields : List (String × JVal))

/-- Primitive JavaScript values that can appear in a parsed JSON body field.
An `Option JsLit` field models presence: `none` is an absent field
(`undefined` after destructuring), `some .jnull` is an explicit JSON null. -/
inductive JsLit where
  | jnull
  | jbool (v : Bool)
  | jstr (v : String)
  | jnum (v : Int)
deriving DecidableEq, Repr

/-- JavaScript `Boolean(x)` truthiness coercion on the modelled primitives. -/
def jsToBool : JsLit → Bool
  | .jnull => false
  | .jbool v => v
  | .jstr v => v ≠ ""
  | .jnum v => v ≠ 0

/-- JS whitespace characters stripped by `String.prototype.trim` (ASCII part). -/
def isSpaceChar (c : Char) : Bool :=
  c = ' ' || c = '\t' || c = '\n' || c = '\r'

/-- Model of JS `s.trim()`: strip whitespace from both ends. -/
def trimStr (s : String) : String :=
  ⟨((s.toList.dropWhile isSpaceChar).reverse.dropWhile isSpaceChar).reverse⟩

/-- Model of JS `s.toLowerCase()` on one ASCII character. -/
def lowerChar (c : Char) : Char :=
  if 65 ≤ c.toNat && c.toNat ≤ 90 then Char.ofNat (c.toNat + 32) else c

/-- Model of JS `s.toLowerCase()`. -/
def toLowerStr (s : String) : String :=
  ⟨s.toList.map lowerChar⟩

/-- Hexadecimal digit test, used by the ObjectId syntax check. -/
def isHexChar (c : Char) : Bool :=
  (48 ≤ c.toNat && c.toNat ≤ 57) || (97 ≤ c.toNat && c.toNat ≤ 102) ||
    (65 ≤ c.toNat && c.toNat ≤ 70)

/-- Model of `mongoose.Types.ObjectId.isValid(id)` for string arguments:
a 24-character hex string, or any 12-character string (which Mongoose
accepts as a raw 12-byte id). Used by updateTask/deleteTask/getTaskById. -/
def isValidObjectId (s : String) : Bool :=
  (s.length == 24 && s.toList.all isHexChar) || s.length == 12

/-- Task record, from the schema in src/server/models/Task.js: title
(required, trimmed, maxlength 40), description (trimmed, maxlength 500,
default ''), completed (default false), userId (required, ref User),
plus the `timestamps: true` pair. `id` models the Mongo `_id`. -/
structure Task where
  id : String
  title : String
  description : String
  completed : Bool
  userId : String
  createdAt : Nat
  updatedAt : Nat
deriving DecidableEq, Repr

/-- Default Mongoose serialization of a task document: the schema defines no
`toJSON` transform, so `res.json(task)` emits every stored field, `_id`
first and the version key `__v` last (these handlers never increment the
version, so it serializes as 0). There is no `id` alias and `userId` is
not removed. -/
def taskToJSON (t : Task) : List (String × JVal) :=
  [("_id", .s t.id), ("title", .s t.title), ("description", .s t.description),
   ("completed", .b t.completed), ("userId", .s t.userId),
   ("createdAt", .n t.createdAt), ("updatedAt", .n t.updatedAt), ("__v", .n 0)]

/-- Key list of the serialized task JSON. -/
def taskJSONKeys : List String :=
  ["_id", "title", "description", "completed", "userId", "createdAt",
   "updatedAt", "__v"]

/-- Model of `Task.find({ userId })`: all tasks owned by `uid`. -/
def findTasks (uid : String) (store : List Task) : List Task :=
  store.filter (fun t => t.userId == uid)

/-- Model of `Task.findOne({ _id: tid, userId: uid })`: the first document
matching the compound filter. -/
def findOneTask (tid uid : String) (store : List Task) : Option Task :=
  store.find? (fun t => t.id == tid && t.userId == uid)

/-- Model of `findOneAndUpdate(filter, update, { new: true })`: apply `f` to
the first document matching `p`, returning the updated document (if any)
and the resulting store. -/
def findOneAndUpdateTask (p : Task → Bool) (f : Task → Task) :
    List Task → Option Task × List Task
  | [] => (none, [])
  | t :: ts =>
    if p t then (some (f t), f t :: ts)
    else
      let r := findOneAndUpdateTask p f ts
      (r.1, t :: r.2)

/-- Model of `findOneAndDelete(filter)`: remove the first document matching
`p`, returning it (if any) and the resulting store. -/
def findOneAndDeleteTask (p : Task → Bool) :
    List Task → Option Task × List Task
  | [] => (none, [])
  | t :: ts =>
    if p t then (some t, ts)
    else
      let r := findOneAndDeleteTask p ts
      (r.1, t :: r.2)

/-- Insert keeping a newest-first order by `createdAt` (`sort({createdAt: -1})`). -/
def insertByCreatedDesc (t : Task) : List Task → List Task
  | [] => [t]
  | u :: us =>
    if u.createdAt ≤ t.createdAt then t :: u :: us
    else u :: insertByCreatedDesc t us

/-- Newest-first sort by `createdAt`, modelling `.sort({ createdAt: -1 })`. -/
def sortByCreatedDesc : List Task → List Task
  | [] => []
  | t :: ts => insertByCreatedDesc t (sortByCreatedDesc ts)

/-- Embeds `exports.getTasks` (taskController.js lines 8-21): the tasks of the
authenticated user, newest first. -/
def getTasks (uid : String) (store : List Task) : List Task :=
  sortByCreatedDesc (findTasks uid store)

/-- Request body of POST /tasks, fields destructured by createTask. -/
structure CreateBody where
  title : Option String
  description : Option String
deriving DecidableEq, Repr

/-- Outcome of createTask. -/
inductive CreateResult where
  | validationError (msg : String)
  | created (t : Task)
deriving DecidableEq, Repr

/-- HTTP status attached to each createTask outcome. -/
def createStatus : CreateResult → Nat
  | .validationError _ => 400
  | .created _ => 201

/-- Embeds `exports.createTask` (taskController.js lines 25-64). Validation
happens before the store is touched; the saved task stores the trimmed
title, the trimmed description (or ''), `completed := false`, and the
requesting user's id. `newId` and `now` model the store-assigned id and
clock. -/
def createTask (uid : String) (body : CreateBody) (newId : String) (now : Nat)
    (store : List Task) : CreateResult × List Task :=
  match body.title with
  | none => (.validationError "Title is required and cannot be empty", store)
  | some t =>
    if t == "" || (trimStr t).length == 0 then
      (.validationError "Title is required and cannot be empty", store)
    else if t.length > 40 then
      (.validationError "Title cannot exceed 40 characters", store)
    else if (match body.description with
             | some d => d != "" && d.length > 500
             | none => false) then
      (.validationError "Description cannot exceed 500 characters", store)
    else
      let newTask : Task :=
        { id := newId
          title := trimStr t
          description :=
            match body.description with
            | some d => if d == "" then "" else trimStr d
            | none => ""
          completed := false
          userId := uid
          createdAt := now
          updatedAt := now }
      (.created newTask, store ++ [newTask])

/-- Request body of PUT /tasks/:id, fields destructured by updateTask.
`completed` is kept as a raw JS primitive because the controller coerces
it with `Boolean(completed)`. -/
structure UpdateBody where
  title : Option String
  description : Option String
  completed : Option JsLit
deriving DecidableEq, Repr

/-- Outcome of updateTask. -/
inductive UpdateResult where
  | invalidId
  | validationError (msg : String)
  | notFound
  | updated (t : Task)
deriving DecidableEq, Repr

/-- HTTP status attached to each updateTask outcome. -/
def updateStatus : UpdateResult → Nat
  | .invalidId => 400
  | .validationError _ => 400
  | .notFound => 404
  | .updated _ => 200

/-- The `updateData` construction of updateTask (lines 96-99): only fields
present in the body are written; `title` is trimmed, `description` maps
falsy ('' after the undefined guard) to '', `completed` goes through
`Boolean(...)`. `updatedAt` is refreshed by the schema's timestamps. -/
def applyUpdate (body : UpdateBody) (now : Nat) (t : Task) : Task :=
  { t with
    title := match body.title with | some s => trimStr s | none => t.title
    description :=
      match body.description with
      | some d => if d == "" then "" else trimStr d
      | none => t.description
    completed :=
      match body.completed with
      | some v => jsToBool v
      | none => t.completed
    updatedAt := now }

/-- Embeds `exports.updateTask` (taskController.js lines 68-120): ObjectId
syntax check, then field validation for any present field, then a single
compound-filter findOneAndUpdate scoped by `{ _id: tid, userId: uid }`. -/
def updateTask (uid tid : String) (body : UpdateBody) (now : Nat)
    (store : List Task) : UpdateResult × List Task :=
  if !(isValidObjectId tid) then (.invalidId, store)
  else if (match body.title with
           | some t => t == "" || (trimStr t).length == 0
           | none => false) then
    (.validationError "Title cannot be empty", store)
  else if (match body.title with
           | some t => decide (t.length > 40)
           | none => false) then
    (.validationError "Title cannot exceed 40 characters", store)
  else if (match body.description with
           | some d => decide (d.length > 500)
           | none => false) then
    (.validationError "Description cannot exceed 500 characters", store)
  else
    let r := findOneAndUpdateTask
      (fun x => x.id == tid && x.userId == uid) (applyUpdate body now) store
    match r.1 with
    | none => (.notFound, r.2)
    | some t2 => (.updated t2, r.2)

/-- Outcome of deleteTask. -/
inductive DeleteResult where
  | invalidId
  | notFound
  | deleted (t : Task)
deriving DecidableEq, Repr

/-- HTTP status attached to each deleteTask outcome. -/
def deleteStatus : DeleteResult → Nat
  | .invalidId => 400
  | .notFound => 404
  | .deleted _ => 200

/-- Embeds `exports.deleteTask` (taskController.js lines 124-148): ObjectId
syntax check, then findOneAndDelete scoped by `{ _id: tid, userId: uid }`. -/
def deleteTask (uid tid : String) (store : List Task) :
    DeleteResult × List Task :=
  if !(isValidObjectId tid) then (.invalidId, store)
  else
    let r := findOneAndDeleteTask (fun x => x.id == tid && x.userId == uid) store
    match r.1 with
    | none => (.notFound, r.2)
    | some t => (.deleted t, r.2)

/-- Outcome of getTaskById. -/
inductive GetResult where
  | invalidId
  | notFound
  | found (t : Task)
deriving DecidableEq, Repr

/-- HTTP status attached to each getTaskById outcome. -/
def getStatus : GetResult → Nat
  | .invalidId => 400
  | .notFound => 404
  | .found _ => 200

/-- Embeds `exports.getTaskById` (taskController.js lines 152-176): ObjectId
syntax check, then findOne scoped by `{ _id: tid, userId: uid }`. -/
def getTaskById (uid tid : String) (store : List Task) : GetResult :=
  if !(isValidObjectId tid) then .invalidId
  else
    match findOneTask tid uid store with
    | none => .notFound
    | some t => .found t

/-- User record, from the schema in src/server/models/User.js: name
(required, trimmed, 2-50 chars), email (required, unique, lowercased,
trimmed), password (required, minlength 6; stored hashed by the pre-save
hook), plus the `timestamps: true` pair. `id` models the Mongo `_id`. -/
structure UserRec where
  id : String
  name : String
  email : String
  password : String
  createdAt : Nat
  updatedAt : Nat
deriving DecidableEq, Repr

/-- The schema setters on the email path (`lowercase: true`, `trim: true`),
applied on save and — per Mongoose's documented behavior since v6 — to
query filter values, so `findOne({ email })` compares normalised emails. -/
def normEmail (e : String) : String :=
  toLowerStr (trimStr e)

/-- One fixed permutation-style character mixer for the digest stand-in. -/
def mixChar (c : Char) : Char :=
  Char.ofNat ((c.toNat + 13) % 128)

/-- Modelled from the spec: the bcrypt hash (`bcryptjs`, an external
dependency whose source is not in this repository). Section 3 of the spec
requires the stored password to be an irreversible salted hash that is
"never plaintext"; sections 4.1/8 require it never to equal the submitted
plaintext. This executable stand-in keeps the observable structure of a
bcrypt string — an algorithm/cost prefix, the per-record salt, then a
digest of the password — and is strictly longer than its input, which
realises the spec's never-equal-to-plaintext guarantee. -/
def bcryptHash (salt pw : String) : String :=
  ⟨"$2b$10$".toList ++ salt.toList ++ '$' :: pw.toList.map mixChar⟩

/-- Embeds `userSchema.pre('save')` (User.js lines 40-55) for a new user
document: the plaintext password field is replaced by its salted hash
before the record reaches the store. -/
def hashPasswordPreSave (salt : String) (u : UserRec) : UserRec :=
  { u with password := bcryptHash salt u.password }

/-- Mongoose `toObject()` for a user document: every stored field. -/
def userToObject (u : UserRec) : List (String × JVal) :=
  [("_id", .s u.id), ("name", .s u.name), ("email", .s u.email),
   ("password", .s u.password), ("createdAt", .n u.createdAt),
   ("updatedAt", .n u.updatedAt), ("__v", .n 0)]

/-- Embeds `userSchema.methods.toJSON` (User.js lines 67-76): convert to a
plain object, then `delete user.password`. -/
def userToJSON (u : UserRec) : List (String × JVal) :=
  (userToObject u).filter (fun kv => kv.1 ≠ "password")

/-- Payload carried by the signed token: `{ userId }` plus the expiry that
`jwt.sign(..., { expiresIn: '7d' })` embeds. -/
structure JwtPayload where
  userId : String
  exp : Nat
deriving DecidableEq, Repr

/-- Decimal digit to character, via the ASCII code of '0'. -/
def digitToChar (d : Nat) : Char :=
  Char.ofNat (48 + d % 10)

/-- Character to decimal digit, partial inverse of `digitToChar`. -/
def charToDigit (c : Char) : Option Nat :=
  if 48 ≤ c.toNat && c.toNat ≤ 57 then some (c.toNat - 48) else none

/-- Numeral encoding of a natural number (little-endian digit list). -/
def encNat (n : Nat) : List Char :=
  (Nat.digits 10 n).map digitToChar

/-- Decode a digit-character list. -/
def decDigits : List Char → Option (List Nat)
  | [] => some []
  | c :: cs =>
    match charToDigit c, decDigits cs with
    | some d, some ds => some (d :: ds)
    | _, _ => none

/-- Decode a numeral, partial inverse of `encNat`. -/
def decNat (l : List Char) : Option Nat :=
  match decDigits l with
  | some ds => some (Nat.ofDigits 10 ds)
  | none => none

/-- Modelled from the spec: the message authentication code inside a signed
token (`jsonwebtoken`, an external dependency whose source is not in this
repository). Section 4.2 requires a signed, tamper-evident token over
`{userIdentity, expiresAt}` under a process-wide secret; the stand-in MAC
binds secret, user id and expiry. -/
def macOf (secret uid : String) (exp : Nat) : List Char :=
  secret.toList ++ ';' :: uid.toList ++ ';' :: encNat exp

/-- Modelled from the spec: the wire form of a signed token, carrying the
claimed user id, the expiry, and the MAC, '|'-separated. -/
def signTokenL (secret uid : String) (exp : Nat) : List Char :=
  uid.toList ++ '|' :: (encNat exp ++ '|' :: macOf secret uid exp)

/-- Token signing as a string, i.e. `jwt.sign({ userId }, secret, ...)`
specialised to an explicit expiry. -/
def signToken (secret uid : String) (exp : Nat) : String :=
  ⟨signTokenL secret uid exp⟩

/-- Embeds `generateToken` (utils/jwt.js lines 6-13): sign `{ userId }` with
the process secret and a 7-day expiry from now. -/
def generateToken (secret : String) (now : Nat) (uid : String) : String :=
  signToken secret uid (now + 7 * 24 * 60 * 60)

/-- Failure modes of the modelled `jwt.verify`, which the library reports by
throwing. -/
inductive JwtError where
  | malformed
  | badSignature
  | expired
deriving DecidableEq, Repr

/-- Separator splitter for the token wire form. -/
def splitBar : List Char → List (List Char)
  | [] => [[]]
  | c :: cs =>
    if c = '|' then [] :: splitBar cs
    else
      match splitBar cs with
      | [] => [[c]]
      | g :: gs => (c :: g) :: gs

/-- Modelled from the spec: `jwt.verify(token, secret)`. It succeeds exactly
on a well-formed token whose MAC matches the secret and whose expiry lies
in the future, and throws (here: returns `.error`) on malformed input, a
MAC mismatch, or an expiry at or before the current time. -/
def jwtVerifyE (secret : String) (now : Nat) (token : String) :
    Except JwtError JwtPayload :=
  match splitBar token.toList with
  | [u, e, m] =>
    match decNat e with
    | none => .error .malformed
    | some exp =>
      if m = macOf secret ⟨u⟩ exp then
        if now < exp then .ok ⟨⟨u⟩, exp⟩ else .error .expired
      else .error .badSignature
  | _ => .error .malformed

/-- Embeds `verifyToken` (utils/jwt.js lines 17-25): `jwt.verify` wrapped in
try/catch, returning the decoded payload or null; every library throw is
mapped to null, so verification failure never escapes the caller. -/
def verifyToken (secret : String) (now : Nat) (token : String) :
    Option JwtPayload :=
  match jwtVerifyE secret now token with
  | .ok p => some p
  | .error _ => none

/-- The user record as attached to `req.user` after
`User.findById(...).select('-password')`: all stored fields except the
password. -/
structure SafeUser where
  id : String
  name : String
  email : String
  createdAt : Nat
  updatedAt : Nat
deriving DecidableEq, Repr

/-- The effect of `.select('-password')` on a user document. -/
def stripPassword (u : UserRec) : SafeUser :=
  ⟨u.id, u.name, u.email, u.createdAt, u.updatedAt⟩

/-- Model of `User.findById(uid)`. -/
def findUserById (uid : String) (users : List UserRec) : Option UserRec :=
  users.find? (fun u => u.id == uid)

/-- Outcome of the auth middleware: either an HTTP rejection or the request
proceeds with `req.user` and `req.userId` attached. -/
inductive AuthResult where
  | reject (status : Nat) (msg : String)
  | proceed (user : SafeUser) (userId : String)
deriving DecidableEq, Repr

/-- Embeds `requireAuth` (middleware/auth.js lines 14-46, the JWT variant
mounted by server.js): extract the bearer token from the Authorization
header (absent header, non-'Bearer ' prefix, and empty token all count as
no token), verify it, resolve the embedded user id against the store, and
either reject with 401 or attach the password-stripped user. -/
def requireAuth (secret : String) (now : Nat) (users : List UserRec)
    (authHeader : Option String) : AuthResult :=
  let token : Option String :=
    match authHeader with
    | some h =>
      if "Bearer ".toList.isPrefixOf h.toList then some ⟨h.toList.drop 7⟩
      else none
    | none => none
  match token with
  | none => .reject 401 "Authentication token required"
  | some tk =>
    if tk = "" then .reject 401 "Authentication token required"
    else
      match verifyToken secret now tk with
      | none => .reject 401 "Invalid or expired token"
      | some decoded =>
        match findUserById decoded.userId users with
        | none => .reject 401 "User not found"
        | some u => .proceed (stripPassword u) u.id

/-- Request body of POST /auth/register. -/
structure RegisterBody where
  name : Option String
  email : Option String
  password : Option String
deriving DecidableEq, Repr

/-- Outcome of the register handler. `saveError` is the 500 path taken when
`user.save()` rejects (schema validation of the name length). -/
inductive RegisterResult where
  | missingFields
  | shortPassword
  | duplicateEmail
  | saveError
  | registered (token : String) (user : UserRec)
deriving DecidableEq, Repr

/-- HTTP status attached to each register outcome. -/
def registerStatus : RegisterResult → Nat
  | .missingFields => 400
  | .shortPassword => 400
  | .duplicateEmail => 400
  | .saveError => 500
  | .registered _ _ => 201

/-- Model of `User.findOne({ email })` in the register handler; the schema
setters normalise the filter value (see `normEmail`), and stored emails
were normalised by the same setters on save. -/
def findUserByEmail (e : String) (users : List UserRec) : Option UserRec :=
  users.find? (fun u => u.email == normEmail e)

/-- Schema-level name constraint checked by `user.save()` (User.js lines
11-17): required, trimmed, minlength 2, maxlength 50. -/
def validUserName (n : String) : Bool :=
  2 ≤ (trimStr n).length && (trimStr n).length ≤ 50

/-- The user document as persisted by `new User({name, email, password})`
followed by `user.save()`: schema setters normalise name and email, the
pre-save hook hashes the password. -/
def newUserDoc (newId salt n e p : String) (now : Nat) : UserRec :=
  hashPasswordPreSave salt
    { id := newId, name := trimStr n, email := normEmail e,
      password := p, createdAt := now, updatedAt := now }

/-- Embeds `router.post('/register')` (routes/auth.js lines 8-47): presence
check (JS falsiness, so empty strings count as missing), password length
check, duplicate-email lookup, then save — which normalises name/email via
the schema setters and hashes the password via the pre-save hook — and
token issuance. `newId`, `salt` and `now` model the store-assigned id, the
random salt and the clock. -/
def registerUser (secret : String) (now : Nat) (newId salt : String)
    (body : RegisterBody) (users : List UserRec) :
    RegisterResult × List UserRec :=
  match body.name, body.email, body.password with
  | some n, some e, some p =>
    if n == "" || e == "" || p == "" then (.missingFields, users)
    else if p.length < 6 then (.shortPassword, users)
    else
      match findUserByEmail e users with
      | some _ => (.duplicateEmail, users)
      | none =>
        if validUserName n then
          (.registered (generateToken secret now newId)
            (newUserDoc newId salt n e p now),
           users ++ [newUserDoc newId salt n e p now])
        else (.saveError, users)
  | _, _, _ => (.missingFields, users)

/-- The `user` object literal embedded in the register and login responses
(routes/auth.js lines 37-41 and 77-81): only `_id`, `name`, `email`. -/
def authUserJSON (u : UserRec) : List (String × JVal) :=
  [("_id", .s u.id), ("name", .s u.name), ("email", .s u.email)]

/-- The 201 response body of POST /auth/register. -/
def registerResponse (token : String) (u : UserRec) : List (String × JVal) :=
  [("message", .s "User registered successfully"), ("token", .s token),
   ("user", .obj (authUserJSON u))]

/-- The 200 response body of POST /auth/login. -/
def loginResponse (token : String) (u : UserRec) : List (String × JVal) :=
  [("message", .s "Login successful"), ("token", .s token),
   ("user", .obj (authUserJSON u))]

/-- The 200 response body of GET /auth/me (routes/auth.js lines 97-105),
built from the attached `req.user`. -/
def meResponse (u : SafeUser) : List (String × JVal) :=
  [("user", .obj [("_id", .s u.id), ("name", .s u.name),
                  ("email", .s u.email)])]

/-- HTTP methods used by the tasks router. -/
inductive Method where
  | get
  | post
  | put
  | del
deriving DecidableEq, Repr

/-- Handlers reachable through the tasks router. -/
inductive TaskRoute where
  | list
  | debug
  | byId (id : String)
  | create
  | update (id : String)
  | remove (id : String)
deriving DecidableEq, Repr

/-- Embeds the route table of src/server/routes/tasks.js with Express's
first-match dispatch on the path below the router mount: GET '/' (line
18), GET '/debug' (line 22) registered before GET '/:id' (line 55), then
POST '/', PUT '/:id', DELETE '/:id'. -/
def matchTaskRoute (m : Method) (path : List String) : Option TaskRoute :=
  match m, path with
  | .get, [] => some .list
  | .get, ["debug"] => some .debug
  | .get, [id] => some (.byId id)
  | .post, [] => some .create
  | .put, [id] => some (.update id)
  | .del, [id] => some (.remove id)
  | _, _ => none

/-- Mongoose connection internals read by the debug route. -/
structure ConnInfo where
  readyState : Nat
  name : String
  host : String
  port : Nat
deriving DecidableEq, Repr

/-- Embeds `router.get('/debug')` (routes/tasks.js lines 22-51), reached only
behind `requireAuth` (server.js line 41): status 200 with the caller's
tasks and the database connection internals. -/
def debugHandler (conn : ConnInfo) (uid userEmail : String)
    (store : List Task) : Nat × List (String × JVal) :=
  let tasks := findTasks uid store
  (200,
   [("connected", .b (conn.readyState == 1)),
    ("database", .s conn.name),
    ("collection", .s "tasks"),
    ("userId", .s uid),
    ("userEmail", .s userEmail),
    ("taskCount", .n tasks.length),
    ("tasks", .arr (tasks.map (fun t => .obj (taskToJSON t)))),
    ("connection", .obj [("host", .s conn.host), ("port", .n conn.port),
                         ("name", .s conn.name)])])

/-- Request bodies that pass the three field-validation guards of updateTask
(empty title, overlong title, overlong description). -/
def validUpdateBody (b : UpdateBody) : Bool :=
  !(match b.title with
    | some t => t == "" || (trimStr t).length == 0
    | none => false)
  && !(match b.title with
    | some t => decide (t.length > 40)
    | none => false)
  && !(match b.description with
    | some d => decide (d.length > 500)
    | none => false)

/-! Helper lemmas about the store operations. -/

theorem findOneAndUpdateTask_eq_none {p : Task → Bool} {f : Task → Task} :
    ∀ l : List Task, (∀ t ∈ l, p t = false) →
      findOneAndUpdateTask p f l = (none, l) := by
  intro l
  induction l with
  | nil => intro _; rfl
  | cons t ts ih =>
    intro h
    have ht : p t = false := h t (by simp)
    have hts := ih (fun u hu => h u (by simp [hu]))
    simp [findOneAndUpdateTask, ht, hts]

theorem findOneAndDeleteTask_eq_none {p : Task → Bool} :
    ∀ l : List Task, (∀ t ∈ l, p t = false) →
      findOneAndDeleteTask p l = (none, l) := by
  intro l
  induction l with
  | nil => intro _; rfl
  | cons t ts ih =>
    intro h
    have ht : p t = false := h t (by simp)
    have hts := ih (fun u hu => h u (by simp [hu]))
    simp [findOneAndDeleteTask, ht, hts]

theorem ownerPredFalse {A B tid : String} {store : List Task}
    (hAB : A ≠ B) (hown : ∀ t ∈ store, t.id = tid → t.userId = A) :
    ∀ t ∈ store, (t.id == tid && t.userId == B) = false := by
  intro t ht
  cases h : (t.id == tid) with
  | false => simp [h]
  | true =>
    have hid : t.id = tid := by simpa using h
    have hA : t.userId = A := hown t ht hid
    simp [h, hA, beq_eq_false_iff_ne]
    exact hAB

/-- C1: a getById, update, or delete request authenticated as a user B that
does not own the task behind `tid` yields exactly the NotFound outcome
(404), with the store unmodified, and the observable result coincides with
the one produced when no task with that id exists at all. -/
theorem C1_cross_user_isolation
    (A B tid : String) (store : List Task)
    (hAB : A ≠ B) (hid : isValidObjectId tid = true)
    (hown : ∀ t ∈ store, t.id = tid → t.userId = A) :
    (getTaskById B tid store = .notFound ∧ getStatus .notFound = 404)
    ∧ (∀ body now, validUpdateBody body = true →
        updateTask B tid body now store = (.notFound, store))
    ∧ deleteTask B tid store = (.notFound, store)
    ∧ getTaskById B tid store
        = getTaskById B tid (store.filter (fun t => !(t.id == tid)))
    ∧ (∀ body now, validUpdateBody body = true →
        (updateTask B tid body now store).1
          = (updateTask B tid body now
              (store.filter (fun t => !(t.id == tid)))).1)
    ∧ (deleteTask B tid store).1
        = (deleteTask B tid (store.filter (fun t => !(t.id == tid)))).1 := by
  have hpred : ∀ t ∈ store, (t.id == tid && t.userId == B) = false :=
    ownerPredFalse hAB hown
  have hpredF : ∀ t ∈ store.filter (fun t => !(t.id == tid)),
      (t.id == tid && t.userId == B) = false := by
    intro t ht
    have := List.of_mem_filter ht
    simp at this
    simp [this]
  have hfind : findOneTask tid B store = none :=
    List.find?_eq_none.mpr (by intro t ht; simp [hpred t ht])
  have hfindF : findOneTask tid B (store.filter (fun t => !(t.id == tid)))
      = none :=
    List.find?_eq_none.mpr (by intro t ht; simp [hpredF t ht])
  refine ⟨⟨?_, rfl⟩, ?_, ?_, ?_, ?_, ?_⟩
  · simp [getTaskById, hid, hfind]
  · intro body now hv
    simp only [validUpdateBody, Bool.and_eq_true, Bool.not_eq_true'] at hv
    obtain ⟨⟨h1, h2⟩, h3⟩ := hv
    simp [updateTask, hid, h1, h2, h3,
      findOneAndUpdateTask_eq_none store hpred]
  · simp [deleteTask, hid, findOneAndDeleteTask_eq_none store hpred]
  · simp [getTaskById, hid, hfind, hfindF]
  · intro body now hv
    simp only [validUpdateBody, Bool.and_eq_true, Bool.not_eq_true'] at hv
    obtain ⟨⟨h1, h2⟩, h3⟩ := hv
    simp [updateTask, hid, h1, h2, h3,
      findOneAndUpdateTask_eq_none store hpred,
      findOneAndUpdateTask_eq_none _ hpredF]
  · simp [deleteTask, hid, findOneAndDeleteTask_eq_none store hpred,
      findOneAndDeleteTask_eq_none _ hpredF]

/-- Witness for C1 at a concrete store: user userB requesting userA's task. -/
theorem C1_cross_user_isolation_witness :
    getTaskById "userB" "64a000000000000000000001"
      [⟨"64a000000000000000000001", "T", "", false, "userA", 0, 0⟩]
      = .notFound :=
  (C1_cross_user_isolation "userA" "userB" "64a000000000000000000001"
    [⟨"64a000000000000000000001", "T", "", false, "userA", 0, 0⟩]
    (by decide) (by decide) (by decide)).1.1

/-- C6: a syntactically malformed task id is rejected with the distinct
InvalidId outcome (status 400, not 404) by getById, update, and delete;
the store is returned unchanged and the outcome does not depend on the
store at all (no store read). -/
theorem C6_invalid_id_rejected (uid tid : String)
    (h : isValidObjectId tid = false) :
    (∀ store, getTaskById uid tid store = .invalidId)
    ∧ (∀ store body now, updateTask uid tid body now store = (.invalidId, store))
    ∧ (∀ store, deleteTask uid tid store = (.invalidId, store))
    ∧ (∀ s1 s2, getTaskById uid tid s1 = getTaskById uid tid s2)
    ∧ (∀ s1 s2 body now,
        (updateTask uid tid body now s1).1 = (updateTask uid tid body now s2).1)
    ∧ (∀ s1 s2, (deleteTask uid tid s1).1 = (deleteTask uid tid s2).1)
    ∧ getStatus .invalidId = 400 ∧ updateStatus .invalidId = 400
    ∧ deleteStatus .invalidId = 400 ∧ getStatus .invalidId ≠ 404 := by
  refine ⟨fun store => by simp [getTaskById, h],
    fun store body now => by simp [updateTask, h],
    fun store => by simp [deleteTask, h],
    fun s1 s2 => by simp [getTaskById, h],
    fun s1 s2 body now => by simp [updateTask, h],
    fun s1 s2 => by simp [deleteTask, h],
    rfl, rfl, rfl, by decide⟩

/-- Witness for C6 at the malformed id "abc". -/
theorem C6_invalid_id_rejected_witness :
    getTaskById "u" "abc" [] = .invalidId :=
  (C6_invalid_id_rejected "u" "abc" (by decide)).1 []

/-- C3: createTask rejects an absent/empty/whitespace-only title, a title
longer than 40 characters, and a description longer than 500 characters,
each with a 400 ValidationError and with the store untouched; a title of
exactly 40 characters (nonblank, with an in-range description) is accepted
and appended to the store with status 201; a 41-character title is always
rejected with a ValidationError. -/
theorem C3_create_validation (uid newId : String) (now : Nat)
    (store : List Task) :
    (∀ d, createTask uid ⟨none, d⟩ newId now store
        = (.validationError "Title is required and cannot be empty", store))
    ∧ (∀ t d, (trimStr t).length = 0 →
        createTask uid ⟨some t, d⟩ newId now store
          = (.validationError "Title is required and cannot be empty", store))
    ∧ (∀ t d, t.length = 40 → (trimStr t).length ≠ 0 →
        (∀ dd, d = some dd → dd.length ≤ 500) →
        ∃ nt, createTask uid ⟨some t, d⟩ newId now store
          = (.created nt, store ++ [nt]) ∧ createStatus (.created nt) = 201)
    ∧ (∀ t d, t.length = 41 →
        ∃ msg, createTask uid ⟨some t, d⟩ newId now store
          = (.validationError msg, store))
    ∧ (∀ t dd, (trimStr t).length ≠ 0 → t.length ≤ 40 → dd.length > 500 →
        createTask uid ⟨some t, some dd⟩ newId now store
          = (.validationError "Description cannot exceed 500 characters", store))
    ∧ (∀ body msg,
        (createTask uid body newId now store).1 = .validationError msg →
        (createTask uid body newId now store).2 = store)
    ∧ (∀ msg, createStatus (.validationError msg) = 400) := by
  have hempty : ∀ t : String, (trimStr t).length ≠ 0 → (t == "") = false := by
    intro t ht
    rw [beq_eq_false_iff_ne]
    intro he
    exact ht (by rw [he]; rfl)
  refine ⟨fun d => rfl, ?_, ?_, ?_, ?_, ?_, fun msg => rfl⟩
  · intro t d h
    simp [createTask, h]
  · intro t d h40 htrim hdesc
    have hne := hempty t htrim
    have hlen : ((trimStr t).length == 0) = false := by simpa using htrim
    have hgt : ¬ (t.length > 40) := by omega
    cases d with
    | none =>
      refine ⟨⟨newId, trimStr t, "", false, uid, now, now⟩, ?_, rfl⟩
      simp [createTask, hne, hlen, hgt]
    | some dd =>
      have h500 : ¬ (dd.length > 500) := by
        have := hdesc dd rfl
        omega
      refine ⟨⟨newId, trimStr t, if dd == "" then "" else trimStr dd,
        false, uid, now, now⟩, ?_, rfl⟩
      simp [createTask, hne, hlen, hgt, h500]
  · intro t d h41
    by_cases hz : (trimStr t).length = 0
    · exact ⟨"Title is required and cannot be empty",
        by simp [createTask, hz]⟩
    · have hne := hempty t hz
      have hlen : ((trimStr t).length == 0) = false := by simpa using hz
      have hgt : t.length > 40 := by omega
      exact ⟨"Title cannot exceed 40 characters",
        by simp [createTask, hne, hlen, hgt]⟩
  · intro t dd htrim h40 h500
    have hne := hempty t htrim
    have hlen : ((trimStr t).length == 0) = false := by simpa using htrim
    have hgt : ¬ (t.length > 40) := by omega
    have hddne : (dd != "") = true := by
      rw [bne_iff_ne]
      intro he
      rw [he] at h500
      simp at h500
    simp [createTask, hne, hlen, hgt, hddne, h500]
  · intro body msg h
    rcases body with ⟨ot, od⟩
    cases ot with
    | none => rfl
    | some t =>
      simp only [createTask] at h ⊢
      split_ifs at h ⊢ <;> simp_all

/-- Witness for C3: a whitespace-only title is rejected, store untouched. -/
theorem C3_create_validation_witness :
    createTask "u" ⟨some "   ", none⟩ "i" 0 []
      = (.validationError "Title is required and cannot be empty", []) :=
  (C3_create_validation "u" "i" 0 []).2.1 "   " none (by decide)

/-! Helper lemmas for findOneAndUpdateTask against a successful find. -/

theorem findOneAndUpdateTask_of_found {p : Task → Bool} {f : Task → Task} :
    ∀ l (a : Task), l.find? p = some a →
      (findOneAndUpdateTask p f l).1 = some (f a) := by
  intro l
  induction l with
  | nil => intro a h; simp at h
  | cons t ts ih =>
    intro a h
    cases hpt : p t with
    | true =>
      rw [List.find?_cons_of_pos ts hpt] at h
      cases h
      simp [findOneAndUpdateTask, hpt]
    | false =>
      rw [List.find?_cons_of_neg ts (by simp [hpt])] at h
      simp [findOneAndUpdateTask, hpt, ih a h]

theorem findOneAndUpdateTask_mem {p : Task → Bool} {f : Task → Task} :
    ∀ l (u : Task), u ∈ l → p u = false →
      u ∈ (findOneAndUpdateTask p f l).2 := by
  intro l
  induction l with
  | nil => intro u hu; simp at hu
  | cons t ts ih =>
    intro u hu hpu
    rcases List.mem_cons.mp hu with he | hm
    · subst he
      simp [findOneAndUpdateTask, hpu]
    · cases hpt : p t with
      | true => simp [findOneAndUpdateTask, hpt, hm]
      | false =>
        simp only [findOneAndUpdateTask, hpt, Bool.false_eq_true, if_false]
        exact List.mem_cons_of_mem _ (ih u hm hpu)

/-- C4: a partial update on an owned task modifies exactly the fields present
in the request: present title/description are written (trimmed), a present
`completed` is coerced through Boolean(), every omitted field keeps its
previous value (no reset to defaults), identity/owner/creation time are
untouched, and unrelated tasks stay in the store. -/
theorem C4_partial_update
    (uid tid : String) (body : UpdateBody) (now : Nat) (store : List Task)
    (t : Task)
    (hid : isValidObjectId tid = true)
    (hv : validUpdateBody body = true)
    (hfind : findOneTask tid uid store = some t) :
    (updateTask uid tid body now store).1
      = .updated (applyUpdate body now t)
    ∧ (body.title = none → (applyUpdate body now t).title = t.title)
    ∧ (body.description = none →
        (applyUpdate body now t).description = t.description)
    ∧ (body.completed = none → (applyUpdate body now t).completed = t.completed)
    ∧ (∀ s, body.title = some s → (applyUpdate body now t).title = trimStr s)
    ∧ (∀ d, body.description = some d →
        (applyUpdate body now t).description = (if d = "" then "" else trimStr d))
    ∧ (∀ v, body.completed = some v →
        (applyUpdate body now t).completed = jsToBool v)
    ∧ (applyUpdate body now t).id = t.id
    ∧ (applyUpdate body now t).userId = t.userId
    ∧ (applyUpdate body now t).createdAt = t.createdAt
    ∧ (∀ u ∈ store, (u.id == tid && u.userId == uid) = false →
        u ∈ (updateTask uid tid body now store).2) := by
  simp only [validUpdateBody, Bool.and_eq_true, Bool.not_eq_true'] at hv
  obtain ⟨⟨h1, h2⟩, h3⟩ := hv
  have hfst := findOneAndUpdateTask_of_found (f := applyUpdate body now)
    store t hfind
  refine ⟨?_, fun h => by simp [applyUpdate, h], fun h => by simp [applyUpdate, h],
    fun h => by simp [applyUpdate, h], fun s h => by simp [applyUpdate, h],
    fun d h => by simp [applyUpdate, h], fun v h => by simp [applyUpdate, h],
    rfl, rfl, rfl, ?_⟩
  · simp [updateTask, hid, h1, h2, h3, hfst]
  · intro u hu hpu
    have hmem := findOneAndUpdateTask_mem
      (p := fun x => x.id == tid && x.userId == uid)
      (f := applyUpdate body now) store u hu hpu
    simp [updateTask, hid, h1, h2, h3, hfst]
    exact hmem

/-- Witness for C4: updating only `completed` with the JS string "false"
coerces to true and leaves title/description at their previous values. -/
theorem C4_partial_update_witness :
    (updateTask "u" "64a000000000000000000001"
      ⟨none, none, some (.jstr "false")⟩ 5
      [⟨"64a000000000000000000001", "Milk", "d", false, "u", 1, 1⟩]).1
      = .updated (applyUpdate ⟨none, none, some (.jstr "false")⟩ 5
          ⟨"64a000000000000000000001", "Milk", "d", false, "u", 1, 1⟩) :=
  (C4_partial_update "u" "64a000000000000000000001"
    ⟨none, none, some (.jstr "false")⟩ 5
    [⟨"64a000000000000000000001", "Milk", "d", false, "u", 1, 1⟩]
    ⟨"64a000000000000000000001", "Milk", "d", false, "u", 1, 1⟩
    (by decide) (by decide) (by decide)).1

/-! Helper lemmas about the token wire format. -/

theorem stringMkToList (s : String) : (⟨s.toList⟩ : String) = s := rfl

theorem splitBar_no_bar : ∀ l : List Char, '|' ∉ l → splitBar l = [l] := by
  intro l
  induction l with
  | nil => intro _; rfl
  | cons c cs ih =>
    intro h
    have hc : ¬ c = '|' := by intro he; exact h (by simp [he])
    have hcs : '|' ∉ cs := fun hm => h (List.mem_cons_of_mem _ hm)
    simp [splitBar, hc, ih hcs]

theorem splitBar_append : ∀ a r : List Char, '|' ∉ a →
    splitBar (a ++ '|' :: r) = a :: splitBar r := by
  intro a
  induction a with
  | nil => intro r _; simp [splitBar]
  | cons c cs ih =>
    intro r h
    have hc : ¬ c = '|' := by intro he; exact h (by simp [he])
    have hcs : '|' ∉ cs := fun hm => h (List.mem_cons_of_mem _ hm)
    simp [splitBar, hc, ih r hcs]

theorem digitToChar_ne_bar (d : Nat) : digitToChar d ≠ '|' := by
  unfold digitToChar
  have h : d % 10 < 10 := Nat.mod_lt _ (by norm_num)
  generalize d % 10 = k at h ⊢
  interval_cases k <;> decide

theorem encNat_no_bar (n : Nat) : '|' ∉ encNat n := by
  intro hm
  rcases List.mem_map.mp hm with ⟨d, _, hd⟩
  exact digitToChar_ne_bar d hd

theorem charToDigit_digitToChar (d : Nat) (h : d < 10) :
    charToDigit (digitToChar d) = some d := by
  interval_cases d <;> decide

theorem decDigits_map_digitToChar (ds : List Nat) (h : ∀ d ∈ ds, d < 10) :
    decDigits (ds.map digitToChar) = some ds := by
  induction ds with
  | nil => rfl
  | cons d ds ih =>
    have hd := h d (by simp)
    have hds := ih (fun x hx => h x (by simp [hx]))
    simp [decDigits, charToDigit_digitToChar d hd, hds]

theorem decNat_encNat (n : Nat) : decNat (encNat n) = some n := by
  have hall : ∀ d ∈ Nat.digits 10 n, d < 10 := fun d hd =>
    Nat.digits_lt_base (by norm_num) hd
  simp [decNat, encNat, decDigits_map_digitToChar _ hall, Nat.ofDigits_digits]

theorem toList_injective {a b : String} (h : a.toList = b.toList) : a = b := by
  cases a with
  | mk d1 =>
    cases b with
    | mk d2 => exact congrArg String.mk (by simpa using h)

theorem macOf_no_bar {secret uid : String} {exp : Nat}
    (hs : '|' ∉ secret.toList) (hu : '|' ∉ uid.toList) :
    '|' ∉ macOf secret uid exp := by
  intro hm
  simp only [macOf, List.mem_append, List.mem_cons] at hm
  rcases hm with (h | h | h) | h | h
  · exact hs h
  · exact absurd h (by decide)
  · exact hu h
  · exact absurd h (by decide)
  · exact encNat_no_bar exp h

theorem splitBar_signTokenL (secret uid : String) (exp : Nat)
    (hs : '|' ∉ secret.toList) (hu : '|' ∉ uid.toList) :
    splitBar (signTokenL secret uid exp)
      = [uid.toList, encNat exp, macOf secret uid exp] := by
  unfold signTokenL
  rw [splitBar_append _ _ hu, splitBar_append _ _ (encNat_no_bar exp),
    splitBar_no_bar _ (macOf_no_bar hs hu)]

/-- C5: verifyToken returns the decoded payload exactly on a token signed
with the right secret whose expiry is in the future; it returns nothing on
an expired token (even though the signature is valid), on a token signed
under a different secret, and on structurally malformed input; and every
failure the underlying verifier reports by throwing is absorbed into the
nothing result, so verification failure never escapes the caller. -/
theorem C5_verify_token (secret uid : String) (exp now : Nat)
    (hs : '|' ∉ secret.toList) (hu : '|' ∉ uid.toList) :
    (now < exp →
      verifyToken secret now (signToken secret uid exp) = some ⟨uid, exp⟩)
    ∧ (exp ≤ now →
      verifyToken secret now (signToken secret uid exp) = none)
    ∧ (∀ s2 : String, '|' ∉ s2.toList → s2 ≠ secret →
      verifyToken secret now (signToken s2 uid exp) = none)
    ∧ (∀ tok : String, (splitBar tok.toList).length ≠ 3 →
      verifyToken secret now tok = none)
    ∧ (∀ tok e, jwtVerifyE secret now tok = .error e →
      verifyToken secret now tok = none) := by
  have hdata : splitBar (signToken secret uid exp).data
      = [uid.toList, encNat exp, macOf secret uid exp] :=
    splitBar_signTokenL secret uid exp hs hu
  refine ⟨?_, ?_, ?_, ?_, ?_⟩
  · intro hlt
    simp [verifyToken, jwtVerifyE, hdata, decNat_encNat,
      stringMkToList, hlt]
  · intro hge
    simp [verifyToken, jwtVerifyE, hdata, decNat_encNat,
      stringMkToList, Nat.not_lt.mpr hge]
  · intro s2 hs2 hne
    have hdata2 : splitBar (signToken s2 uid exp).data
        = [uid.toList, encNat exp, macOf s2 uid exp] :=
      splitBar_signTokenL s2 uid exp hs2 hu
    have hmac : ¬ (macOf s2 uid exp = macOf secret uid exp) := by
      intro he
      simp only [macOf] at he
      have h1 := List.append_cancel_right he
      have h2 := List.append_cancel_right h1
      exact hne (toList_injective h2)
    simp [verifyToken, jwtVerifyE, hdata2, decNat_encNat,
      stringMkToList, hmac]
  · intro tok hlen
    have hlen2 : (splitBar tok.data).length ≠ 3 := hlen
    rcases hsp : splitBar tok.data with _ | ⟨a, _ | ⟨b, _ | ⟨c, _ | ⟨d, tl⟩⟩⟩⟩
    · simp [verifyToken, jwtVerifyE, hsp]
    · simp [verifyToken, jwtVerifyE, hsp]
    · simp [verifyToken, jwtVerifyE, hsp]
    · exact absurd (by simp [hsp]) hlen2
    · simp [verifyToken, jwtVerifyE, hsp]
  · intro tok e h
    simp [verifyToken, h]

/-- Witness for C5: a token signed with the live secret and a future expiry
decodes to its embedded identity. -/
theorem C5_verify_token_witness :
    verifyToken "k" 5 (signToken "k" "u" 9) = some ⟨"u", 9⟩ :=
  (C5_verify_token "k" "u" 9 5 (by decide) (by decide)).1 (by decide)

/-- C2: the auth gate realises the per-request state machine. A missing
Authorization header is rejected 401; a header without the 'Bearer '
prefix is rejected exactly as if no token were present; a token that fails
verification is rejected 401; a verified token whose embedded identity
matches no stored user is rejected 401; otherwise the request proceeds
with the resolved id and the password-stripped user record attached; and
every rejection the gate can produce carries status 401. -/
theorem C2_auth_gate (secret : String) (now : Nat) (users : List UserRec) :
    (requireAuth secret now users none
      = .reject 401 "Authentication token required")
    ∧ (∀ h : String, "Bearer ".toList.isPrefixOf h.toList = false →
        requireAuth secret now users (some h)
          = requireAuth secret now users none)
    ∧ (∀ h tk : String, "Bearer ".toList.isPrefixOf h.toList = true →
        (⟨h.toList.drop 7⟩ : String) = tk → tk ≠ "" →
        verifyToken secret now tk = none →
        requireAuth secret now users (some h)
          = .reject 401 "Invalid or expired token")
    ∧ (∀ (h tk : String) (p : JwtPayload),
        "Bearer ".toList.isPrefixOf h.toList = true →
        (⟨h.toList.drop 7⟩ : String) = tk → tk ≠ "" →
        verifyToken secret now tk = some p →
        findUserById p.userId users = none →
        requireAuth secret now users (some h)
          = .reject 401 "User not found")
    ∧ (∀ (h tk : String) (p : JwtPayload) (u : UserRec),
        "Bearer ".toList.isPrefixOf h.toList = true →
        (⟨h.toList.drop 7⟩ : String) = tk → tk ≠ "" →
        verifyToken secret now tk = some p →
        findUserById p.userId users = some u →
        requireAuth secret now users (some h)
          = .proceed (stripPassword u) u.id)
    ∧ (∀ header s m, requireAuth secret now users header = .reject s m →
        s = 401) := by
  refine ⟨rfl, ?_, ?_, ?_, ?_, ?_⟩
  · intro h hb
    have hbP : ¬ (['B', 'e', 'a', 'r', 'e', 'r', ' '] <+: h.data) := by
      intro hp
      have h2 : (['B', 'e', 'a', 'r', 'e', 'r', ' '].isPrefixOf h.data) = true :=
        List.isPrefixOf_iff_prefix.mpr hp
      have h3 : (['B', 'e', 'a', 'r', 'e', 'r', ' '].isPrefixOf h.data) = false :=
        hb
      rw [h2] at h3
      exact absurd h3 (by decide)
    simp [requireAuth, hbP]
  · intro h tk hb htk hne hv
    have hbP : (['B', 'e', 'a', 'r', 'e', 'r', ' '] <+: h.data) :=
      List.isPrefixOf_iff_prefix.mp hb
    subst htk
    have hne2 : ¬ ((⟨List.drop 7 h.data⟩ : String) = "") := hne
    have hv2 : verifyToken secret now ⟨List.drop 7 h.data⟩ = none := hv
    simp [requireAuth, hbP, hne2, hv2]
  · intro h tk p hb htk hne hv hf
    have hbP : (['B', 'e', 'a', 'r', 'e', 'r', ' '] <+: h.data) :=
      List.isPrefixOf_iff_prefix.mp hb
    subst htk
    have hne2 : ¬ ((⟨List.drop 7 h.data⟩ : String) = "") := hne
    have hv2 : verifyToken secret now ⟨List.drop 7 h.data⟩ = some p := hv
    simp [requireAuth, hbP, hne2, hv2, hf]
  · intro h tk p u hb htk hne hv hf
    have hbP : (['B', 'e', 'a', 'r', 'e', 'r', ' '] <+: h.data) :=
      List.isPrefixOf_iff_prefix.mp hb
    subst htk
    have hne2 : ¬ ((⟨List.drop 7 h.data⟩ : String) = "") := hne
    have hv2 : verifyToken secret now ⟨List.drop 7 h.data⟩ = some p := hv
    simp [requireAuth, hbP, hne2, hv2, hf]
  · intro header s m hres
    cases header with
    | none =>
      simp only [requireAuth] at hres
      injection hres with h1 h2
      omega
    | some h =>
      by_cases hb : ("Bearer ".toList.isPrefixOf h.toList) = true
      · have hbP : (['B', 'e', 'a', 'r', 'e', 'r', ' '] <+: h.data) :=
          List.isPrefixOf_iff_prefix.mp hb
        by_cases hz : (⟨List.drop 7 h.data⟩ : String) = ""
        · simp [requireAuth, hbP, hz] at hres
          omega
        · cases hv : verifyToken secret now ⟨List.drop 7 h.data⟩ with
          | none =>
            simp [requireAuth, hbP, hz, hv] at hres
            omega
          | some p =>
            cases hf : findUserById p.userId users with
            | none =>
              simp [requireAuth, hbP, hz, hv, hf] at hres
              omega
            | some u =>
              simp [requireAuth, hbP, hz, hv, hf] at hres
      · have hbP : ¬ (['B', 'e', 'a', 'r', 'e', 'r', ' '] <+: h.data) :=
          fun hp => hb (List.isPrefixOf_iff_prefix.mpr hp)
        simp [requireAuth, hbP] at hres
        omega

/-- Witness for C2: a header with the wrong scheme prefix is treated exactly
as a missing header. -/
theorem C2_auth_gate_witness :
    requireAuth "sek" 0 [] (some "Token abc")
      = requireAuth "sek" 0 [] none :=
  (C2_auth_gate "sek" 0 []).2.1 "Token abc" (by decide)

/-- C7: registration against an email already present under case-insensitive
comparison fails with DuplicateEmail, status 400, and leaves the user
store unchanged. (Stored emails are normalised on save; the query filter is
normalised by the same schema setters.) -/
theorem C7_duplicate_email (secret : String) (now : Nat) (newId salt : String)
    (n e p : String) (users : List UserRec) (u : UserRec)
    (hmem : u ∈ users) (hdup : u.email = normEmail e)
    (hn : n ≠ "") (he : e ≠ "") (hp : p ≠ "") (hp6 : ¬ p.length < 6) :
    registerUser secret now newId salt ⟨some n, some e, some p⟩ users
      = (.duplicateEmail, users)
    ∧ registerStatus .duplicateEmail = 400 := by
  refine ⟨?_, rfl⟩
  have hfind : findUserByEmail e users ≠ none := by
    intro hnone
    have := List.find?_eq_none.mp hnone u hmem
    simp [hdup] at this
  rcases hw : findUserByEmail e users with _ | w
  · exact absurd hw hfind
  · simp [registerUser, hn, he, hp, hp6, hw]

/-- Witness for C7: re-registering an existing email with different letter
case is rejected and the store is unchanged. -/
theorem C7_duplicate_email_witness :
    registerUser "s" 0 "id2" "salt"
      ⟨some "Bob", some "John@X.com", some "secret1"⟩
      [⟨"id1", "Jo", "john@x.com", "H", 0, 0⟩]
      = (.duplicateEmail, [⟨"id1", "Jo", "john@x.com", "H", 0, 0⟩]) :=
  (C7_duplicate_email "s" 0 "id2" "salt" "Bob" "John@X.com" "secret1"
    [⟨"id1", "Jo", "john@x.com", "H", 0, 0⟩]
    ⟨"id1", "Jo", "john@x.com", "H", 0, 0⟩
    (by decide) (by decide) (by decide) (by decide) (by decide) (by decide)).1

theorem bcryptHash_length (salt pw : String) :
    (bcryptHash salt pw).length = 7 + salt.length + 1 + pw.length := by
  have h : (bcryptHash salt pw).length
      = ("$2b$10$".toList).length + salt.toList.length
        + ((pw.toList.map mixChar).length + 1) := by
    show ("$2b$10$".toList ++ salt.toList ++ '$' :: pw.toList.map mixChar).length
      = _
    rw [List.length_append, List.length_append, List.length_cons]
  rw [h, List.length_map]
  have h7 : ("$2b$10$".toList).length = 7 := by decide
  rw [h7]
  have hs : salt.toList.length = salt.length := rfl
  have hp : pw.toList.length = pw.length := rfl
  rw [hs, hp]
  omega

theorem bcryptHash_ne_plaintext (salt pw : String) : bcryptHash salt pw ≠ pw := by
  intro he
  have hlen := congrArg String.length he
  rw [bcryptHash_length] at hlen
  omega

/-- C8: a valid registration stores the salted hash of the password, which is
never equal to the submitted plaintext, and the password field is absent
from user serialization (toJSON) and from the user objects embedded in the
register, login and /auth/me responses. -/
theorem C8_password_storage (secret : String) (now : Nat) (newId salt : String)
    (n e p : String) (users : List UserRec)
    (hn : n ≠ "") (he : e ≠ "") (hp : p ≠ "") (hp6 : ¬ p.length < 6)
    (hdup : findUserByEmail e users = none)
    (hname : validUserName n = true) :
    (registerUser secret now newId salt ⟨some n, some e, some p⟩ users
      = (.registered (generateToken secret now newId)
          (newUserDoc newId salt n e p now),
         users ++ [newUserDoc newId salt n e p now]))
    ∧ (newUserDoc newId salt n e p now).password = bcryptHash salt p
    ∧ (newUserDoc newId salt n e p now).password ≠ p
    ∧ (∀ u : UserRec, "password" ∉ (userToJSON u).map Prod.fst)
    ∧ (∀ tok u, "password" ∉ (registerResponse tok u).map Prod.fst)
    ∧ (∀ u : UserRec, "password" ∉ (authUserJSON u).map Prod.fst)
    ∧ (∀ tok u, "password" ∉ (loginResponse tok u).map Prod.fst)
    ∧ (∀ su : SafeUser, "password" ∉ (meResponse su).map Prod.fst) := by
  refine ⟨?_, rfl, bcryptHash_ne_plaintext salt p, ?_, ?_, ?_, ?_, ?_⟩
  · simp [registerUser, hn, he, hp, hp6, hdup, hname]
  · intro u
    simp [userToJSON, userToObject]
  · intro tok u
    simp [registerResponse]
  · intro u
    simp [authUserJSON]
  · intro tok u
    simp [loginResponse]
  · intro su
    simp [meResponse]

/-- Witness for C8: a concrete valid registration stores the hash and the
store gains exactly the hashed record. -/
theorem C8_password_storage_witness :
    registerUser "s" 0 "id1" "salt9"
      ⟨some "Bob", some "b@x.com", some "secret1"⟩ []
      = (.registered (generateToken "s" 0 "id1")
          (newUserDoc "id1" "salt9" "Bob" "b@x.com" "secret1" 0),
         [newUserDoc "id1" "salt9" "Bob" "b@x.com" "secret1" 0]) :=
  (C8_password_storage "s" 0 "id1" "salt9" "Bob" "b@x.com" "secret1" []
    (by decide) (by decide) (by decide) (by decide) (by decide) (by decide)).1

/-- Counterexample for C9 as frozen: a task returned by getById serializes
with the owning `userId` field present and with the Mongo `_id` key rather
than an `id` key, so the claimed shape (exactly `{id, title, description,
completed, createdAt, updatedAt}` with the owner omitted) is wrong. -/
theorem C9_counterexample :
    getTaskById "64b000000000000000000002" "64a000000000000000000001"
      [⟨"64a000000000000000000001", "Buy milk", "2%", false,
        "64b000000000000000000002", 1, 1⟩]
      = .found ⟨"64a000000000000000000001", "Buy milk", "2%", false,
        "64b000000000000000000002", 1, 1⟩
    ∧ "userId" ∈ (taskToJSON ⟨"64a000000000000000000001", "Buy milk", "2%",
        false, "64b000000000000000000002", 1, 1⟩).map Prod.fst
    ∧ "id" ∉ (taskToJSON ⟨"64a000000000000000000001", "Buy milk", "2%",
        false, "64b000000000000000000002", 1, 1⟩).map Prod.fst := by
  decide

/-- C9 (amended): every task object returned in a response serializes with
exactly the keys `{_id, title, description, completed, userId, createdAt,
updatedAt, __v}`: there is no `id` alias, and the owning-identity field
`userId` is included, not omitted. -/
theorem C9_task_shape :
    (∀ t : Task, (taskToJSON t).map Prod.fst = taskJSONKeys)
    ∧ ("userId" ∈ taskJSONKeys ∧ "_id" ∈ taskJSONKeys ∧ "id" ∉ taskJSONKeys)
    ∧ (∀ uid tid store t, getTaskById uid tid store = .found t →
        "userId" ∈ (taskToJSON t).map Prod.fst
          ∧ "id" ∉ (taskToJSON t).map Prod.fst)
    ∧ (∀ uid body newId now store t s2,
        createTask uid body newId now store = (.created t, s2) →
        (taskToJSON t).map Prod.fst = taskJSONKeys)
    ∧ (∀ uid store t, t ∈ getTasks uid store →
        (taskToJSON t).map Prod.fst = taskJSONKeys) := by
  refine ⟨fun t => rfl, by decide, ?_, ?_, ?_⟩
  · intro uid tid store t _
    exact ⟨by simp [taskToJSON], by simp [taskToJSON]⟩
  · intro uid body newId now store t s2 _
    rfl
  · intro uid store t _
    rfl

/-- Witness for C9 (amended) at a concrete retrieved task. -/
theorem C9_task_shape_witness :
    "userId" ∈ (taskToJSON ⟨"64a000000000000000000001", "T", "", false,
      "u", 0, 0⟩).map Prod.fst
    ∧ "id" ∉ (taskToJSON ⟨"64a000000000000000000001", "T", "", false,
      "u", 0, 0⟩).map Prod.fst :=
  C9_task_shape.2.2.1 "u" "64a000000000000000000001"
    [⟨"64a000000000000000000001", "T", "", false, "u", 0, 0⟩]
    ⟨"64a000000000000000000001", "T", "", false, "u", 0, 0⟩
    (by decide)

/-- C10: the tasks router exposes GET /tasks/debug (matched before the
parametric /:id route), and for an authenticated caller it answers 200
with the caller's tasks together with store-connection internals:
connection state, database name, collection name, host and port. -/
theorem C10_debug_endpoint (conn : ConnInfo) (uid userEmail : String)
    (store : List Task) :
    matchTaskRoute .get ["debug"] = some .debug
    ∧ (debugHandler conn uid userEmail store).1 = 200
    ∧ ((debugHandler conn uid userEmail store).2.map Prod.fst
        = ["connected", "database", "collection", "userId", "userEmail",
           "taskCount", "tasks", "connection"])
    ∧ List.lookup "connection" (debugHandler conn uid userEmail store).2
        = some (.obj [("host", .s conn.host), ("port", .n conn.port),
                      ("name", .s conn.name)])
    ∧ List.lookup "database" (debugHandler conn uid userEmail store).2
        = some (.s conn.name)
    ∧ List.lookup "connected" (debugHandler conn uid userEmail store).2
        = some (.b (conn.readyState == 1))
    ∧ List.lookup "tasks" (debugHandler conn uid userEmail store).2
        = some (.arr ((findTasks uid store).map (fun t => .obj (taskToJSON t))))
    ∧ (∀ t ∈ findTasks uid store, t.userId = uid) := by
  refine ⟨rfl, rfl, rfl, ?_, ?_, ?_, ?_, ?_⟩
  · simp [debugHandler, List.lookup]
  · simp [debugHandler, List.lookup]
  · simp [debugHandler, List.lookup]
  · simp [debugHandler, List.lookup]
  · intro t ht
    have := (List.mem_filter.mp ht).2
    simpa using this

/-- Witness for C10: the one task in a concrete store surfaced by the debug
endpoint belongs to the requesting user. -/
theorem C10_debug_endpoint_witness :
    Task.userId ⟨"64a000000000000000000001", "T", "", false, "u", 0, 0⟩ = "u" :=
  (C10_debug_endpoint ⟨1, "taskdb", "localhost", 27017⟩ "u" "u@x.com"
    [⟨"64a000000000000000000001", "T", "", false, "u", 0, 0⟩]).2.2.2.2.2.2.2
    ⟨"64a000000000000000000001", "T", "", false, "u", 0, 0⟩ (by decide)

end TaskTracker
